import Mathlib

/-!
Verification development for the statusdb data-access layer
(`scilifelab/db/statusdb.py`).

The Python source is shallowly embedded: Python dictionaries become
insertion-ordered association lists (`Dict`), exceptions become
`Except PyErr`, the regular expressions used by the identifier matcher are
embedded as concrete functions on `List Char` computing the same leftmost
matches, and the external CouchDB database is a record of its two read
operations (`view` rows and `get` by storage id).  Logging calls that carry
data relevant to the specification (the fallback advisory and the
consistency warning of `map_name_to_srm`) are modelled as a list of
`LogEntry` values; purely diagnostic debug lines of the CRUD wrappers are
not modelled.
-/

/-- Python exception kinds that the embedded code can raise. -/
inductive PyErr where
  | nameError
  | attributeError
  | typeError
  | keyError
  | unboundLocalError
deriving DecidableEq

/-- Python dictionaries, as insertion-ordered association lists with unique
keys maintained by `dinsert`. -/
abbrev Dict (κ : Type) (α : Type) := List (κ × α)

/-- Dictionary assignment `d[k] = v`: replace the value at `k` in place if the
key is present, otherwise append the new pair at the end (Python dicts keep
insertion order and keep an updated key at its original position). -/
def dinsert {κ α : Type} [DecidableEq κ] (d : Dict κ α) (k : κ) (v : α) : Dict κ α :=
  match d with
  | [] => [(k, v)]
  | (k', v') :: rest => if k' = k then (k, v) :: rest else (k', v') :: dinsert rest k v

/-- Dictionary lookup `d.get(k, None)`. -/
def dlookup {κ α : Type} [DecidableEq κ] (d : Dict κ α) (k : κ) : Option α :=
  match d with
  | [] => none
  | (k', v) :: rest => if k' = k then some v else dlookup rest k

/-- Truthiness of a Python string-or-None value: `None` and the empty string
are falsy. -/
def truthyStr : Option String → Bool
  | none => false
  | some s => !(s == "")

/-- `str(x)` applied to a string-or-None value. -/
def pyStr : Option String → String
  | none => "None"
  | some s => s

/-- Python `s.startswith(t)`. -/
def pyStartswith (s t : String) : Bool := t.toList.isPrefixOf s.toList

/-- Python `s.rstrip(c)` for a one-character strip set: remove every trailing
occurrence of `c`. -/
def rstripAll (s : String) (c : Char) : String :=
  String.mk ((s.toList.reverse.dropWhile (fun x => x == c)).reverse)

/-- `list(set(l))`: the elements of `l` without duplicates (the order of a
Python set is unspecified; we keep first occurrences). -/
def pyListSet (l : List String) : List String :=
  l.foldl (fun acc x => if acc.contains x then acc else acc ++ [x]) []

/-! ### Regular expressions used by the identifier matcher

Each of the three patterns of `_match_project_name_to_barcode_name` is
embedded as a function computing the leftmost match's first group, exactly
as Python `re.search` does on that pattern.
-/

/-- Whether the pattern tail `_?([A-Z])?_` of `(\d+)_?([A-Z])?_` matches at
the head of `l`.  Backtracking over the two optional atoms reduces to: the
next character is `_`, or it is an uppercase letter followed by `_`. -/
def tail1Ok : List Char → Bool
  | [] => false
  | c :: rest =>
    c == '_' || (c.isUpper && (match rest with | c2 :: _ => c2 == '_' | [] => false))

/-- Match of `(\d+)_?([A-Z])?_` anchored at the head of `l`; returns group 1
(the maximal digit run) on success. -/
def matchDigitsAt (l : List Char) : Option (List Char) :=
  let run := l.takeWhile Char.isDigit
  bif run.isEmpty then none
  else bif tail1Ok (l.dropWhile Char.isDigit) then some run else none

/-- `re.search("(\d+)_?([A-Z])?_", s)`: group 1 of the leftmost match. -/
def searchDigits (l : List Char) : Option (List Char) :=
  (l.tails.filterMap matchDigitsAt).head?

/-- Strip a literal prefix, character by character. -/
def stripLit : List Char → List Char → Option (List Char)
  | [], l => some l
  | _ :: _, [] => none
  | p :: ps, c :: cs => bif p == c then stripLit ps cs else none

/-- Match of `(_index[0-9]+)` anchored at the head of `l`. -/
def matchIndexAt (l : List Char) : Option (List Char) :=
  match stripLit "_index".toList l with
  | none => none
  | some rest =>
    let ds := rest.takeWhile Char.isDigit
    bif ds.isEmpty then none else some ("_index".toList ++ ds)

/-- `re.search("(_index[0-9]+)", s)`: group 1 of the leftmost match. -/
def searchIndex (l : List Char) : Option (List Char) :=
  (l.tails.filterMap matchIndexAt).head?

/-- The character class `[A-Za-z0-9_]`. -/
def isWordChar (c : Char) : Bool := c.isAlpha || c.isDigit || c == '_'

/-- Match of `([A-Za-z0-9_]+)(\_index[0-9]+)?` anchored at the head of `l`;
the greedy first group is the maximal word-character run. -/
def matchWordAt (l : List Char) : Option (List Char) :=
  let run := l.takeWhile isWordChar
  bif run.isEmpty then none else some run

/-- `re.search("([A-Za-z0-9\_]+)(\_index[0-9]+)?", s)`: group 1 of the
leftmost match. -/
def searchWord (l : List Char) : Option (List Char) :=
  (l.tails.filterMap matchWordAt).head?

/-- Fuelled worker for `str.replace(pat, "")` with a non-empty pattern:
remove non-overlapping occurrences left to right.  Each step consumes at
least one character, so fuel equal to the length of the string suffices. -/
def replaceAllFuel (pat : List Char) : Nat → List Char → List Char
  | _, [] => []
  | 0, l => l
  | n + 1, c :: cs =>
    bif pat.isPrefixOf (c :: cs) then replaceAllFuel pat n ((c :: cs).drop pat.length)
    else c :: replaceAllFuel pat n cs

/-- Python `s.replace(pat, "")` (replacing with the empty string is the only
use in the source; an empty pattern leaves the string unchanged). -/
def pyReplaceAll (s pat : String) : String :=
  match pat.toList with
  | [] => s
  | p :: ps => String.mk (replaceAllFuel (p :: ps) s.toList.length s.toList)

/-! ### The identifier matcher -/

/-- The `P`-prefixed branch of the matcher (source lines 55-62): the run name
must start with the project sample name, or with the name after `rstrip("F")`,
or after `rstrip("B")`. -/
def pBranch (n s : String) : Bool :=
  bif pyStartswith s n then true
  else bif pyStartswith s (rstripAll n 'F') then true
  else bif pyStartswith s (rstripAll n 'B') then true
  else false

/-- The non-`P` branch of the matcher (source lines 42-54).  `re.search`
returning `None` makes the subsequent `.group(1)` raise `AttributeError`. -/
def nonPBranch (n s : String) : Except PyErr Bool :=
  match searchDigits s.toList with
  | none => Except.error PyErr.attributeError
  | some g1 =>
    bif String.mk g1 == n then Except.ok true
    else
      let index : String :=
        match searchIndex s.toList with
        | none => ""
        | some g => String.mk g
      let stripped := pyReplaceAll s index
      match searchWord stripped.toList with
      | none => Except.error PyErr.attributeError
      | some g2 => Except.ok (String.mk g2 == n)

/-- `_match_project_name_to_barcode_name` (source lines 39-62).  The run name
argument may be Python `None` (it is fed from `s.get("barcode_name", None)`):
in the non-`P` branch `re.search` then raises `TypeError`, in the `P` branch
`str(...)` turns it into the string `"None"`. -/
def _match_project_name_to_barcode_name (project_sample_name : String)
    (sample_run_name : Option String) : Except PyErr Bool :=
  bif pyStartswith project_sample_name "P" then
    Except.ok (pBranch project_sample_name (pyStr sample_run_name))
  else
    match sample_run_name with
    | none => Except.error PyErr.typeError
    | some s => nonPBranch project_sample_name s

/-! ### Curated-map pruning -/

/-- The character class `[ACGT]`. -/
def isACGT (c : Char) : Bool := c == 'A' || c == 'C' || c == 'G' || c == 'T'

/-- Whether `re.search("_[ACGT]+$|_NoIndex$", k)` matches: the key ends in an
underscore followed by a non-empty `[ACGT]` run, or ends in `_NoIndex`. -/
def pruneKeyOk (k : String) : Bool :=
  let r := k.toList.reverse
  let run := r.takeWhile isACGT
  (!run.isEmpty && (match r.drop run.length with | '_' :: _ => true | _ => false))
    || "_NoIndex".toList.isSuffixOf k.toList

/-- `_prune_ps_map` (source lines 70-79): `None` and the empty map give
`None`; otherwise keep only entries whose run identifier matches the
well-formed-suffix pattern. -/
def _prune_ps_map (ps_map : Option (Dict String String)) : Option (Dict String String) :=
  match ps_map with
  | none => none
  | some d =>
    bif d.isEmpty then none
    else some (d.filter (fun kv => pruneKeyOk kv.1))

/-! ### Run-metrics index (`SampleRunMetricsConnection`) -/

/-- One row of a CouchDB view: emitted key, the document's storage id, and
the emitted value (possibly `null`). -/
structure ViewRow where
  key : String
  id : String
  value : Option String
deriving DecidableEq

/-- A sample-run document, with the fields the reconciler reads.  `docId`
models the `_id` storage field. -/
structure SrmDoc where
  name : String
  docId : String
  barcode_name : Option String
  flowcell : Option String
  sample_prj : Option String
deriving DecidableEq

/-- State of a `SampleRunMetricsConnection`: the raw rows of the `name_fc`
and `name_proj` views, plus `db.get`. -/
structure SRMConn where
  name_fc_view : List ViewRow
  name_proj_view : List ViewRow
  docs : String → Option SrmDoc

/-- `{k.key: k for k in rows}`: build the per-name dictionary of view rows
(a duplicate key keeps the later row). -/
def viewDict (rows : List ViewRow) : Dict String ViewRow :=
  rows.foldl (fun d r => dinsert d r.key r) []

/-- The flowcell-filter candidate list of `get_sample_ids` (source line 122):
empty when `fc_id` is falsy. -/
def fcCandidates (scon : SRMConn) (fc_id : Option String) : List String :=
  bif truthyStr fc_id then
    (((viewDict scon.name_fc_view).map Prod.snd).filter (fun r => r.value == fc_id)).map ViewRow.id
  else []

/-- The project-filter candidate list of `get_sample_ids` (source line 123). -/
def prjCandidates (scon : SRMConn) (sample_prj : Option String) : List String :=
  bif truthyStr sample_prj then
    (((viewDict scon.name_proj_view).map Prod.snd).filter (fun r => r.value == sample_prj)).map ViewRow.id
  else []

/-- `list(set(a) & set(b))`. -/
def pyIntersect (a b : List String) : List String :=
  pyListSet (a.filter (fun x => b.contains x))

/-- `list(set(a) | set(b))`. -/
def pyUnion (a b : List String) : List String :=
  pyListSet (a ++ b)

/-- `get_sample_ids` (source lines 113-130): intersection of the two
candidate lists when both are non-empty, union otherwise. -/
def get_sample_ids (scon : SRMConn) (fc_id sample_prj : Option String) : List String :=
  let fc_sample_ids := fcCandidates scon fc_id
  let prj_sample_ids := prjCandidates scon sample_prj
  if 0 < fc_sample_ids.length ∧ 0 < prj_sample_ids.length then
    pyIntersect fc_sample_ids prj_sample_ids
  else
    pyUnion fc_sample_ids prj_sample_ids

/-- `get_samples` (source lines 132-142): dereference each id through
`db.get` (which yields `None` for a stale id). -/
def get_samples (scon : SRMConn) (fc_id sample_prj : Option String) : List (Option SrmDoc) :=
  (get_sample_ids scon fc_id sample_prj).map scon.docs

/-! ### Project store (`ProjectSummaryConnection`) -/

/-- A project sample entry: optional nested `library_prep` structure (each
prep carrying its `sample_run_metrics` map) and optional flat
`sample_run_metrics` map. -/
structure PrjSampleDoc where
  library_prep : Option (Dict String (Dict String String))
  sample_run_metrics : Option (Dict String String)
deriving DecidableEq

/-- A project summary document, reduced to the `samples` map the reconciler
reads (`project.get('samples', None)`). -/
structure ProjDoc where
  samples : Option (Dict String PrjSampleDoc)
deriving DecidableEq

/-- State of a `ProjectSummaryConnection`: the `project/project_id` view as a
dictionary `project_id -> storage id`, plus `db.get`. -/
structure ProjConn where
  name_view : Dict String String
  docs : String → Option ProjDoc

/-- `get_entry` of `ProjectSummaryConnection` without a field argument
(source lines 192-208): `None` when the project id is not in the view,
otherwise `db.get` of the mapped id. -/
def get_entryP (pcon : ProjConn) (name : String) : Option ProjDoc :=
  match dlookup pcon.name_view name with
  | none => none
  | some i => pcon.docs i

/-- Truthiness of a `library_prep` / dict-or-None value: `None` and the empty
dict are falsy. -/
def truthyDictOpt {α : Type} : Option (Dict String α) → Bool
  | none => false
  | some d => !d.isEmpty

/-- `_get_sample_run_metrics` (source lines 322-327): flatten the nested
library preps into one run-identifier map (later preps overwriting earlier
on collision), or fall back to the flat `sample_run_metrics` field. -/
def _get_sample_run_metrics (v : PrjSampleDoc) : Option (Dict String String) :=
  bif truthyDictOpt v.library_prep then
    some ((match v.library_prep with | some preps => preps | none => []).foldl
      (fun (acc : Dict String String) (kk : String × Dict String String) =>
        kk.2.foldl (fun (a : Dict String String) (kv : String × String) =>
          dinsert a kv.1 kv.2) acc) [])
  else v.sample_run_metrics

/-! ### The sample reconciler (`map_name_to_srm` / `map_srm_to_name`) -/

/-- An entry of the per-sample reconciliation map: Python `None` or a
run-identifier to storage-id dictionary. -/
abbrev Cell := Option (Dict String String)

/-- Truthiness of a cell: `None` and the empty dict are falsy. -/
def truthyCell : Cell → Bool
  | none => false
  | some d => !d.isEmpty

/-- Python `==` on two dictionaries: order-insensitive key/value equality. -/
def pyDictEq (a b : Dict String String) : Bool :=
  (a.all fun kv => dlookup b kv.1 == some kv.2) && (b.all fun kv => dlookup a kv.1 == some kv.2)

/-- Python `ps_map == bc_map` where `ps_map` may be `None`: `None` never
equals a dict. -/
def pyEqOptDict : Option (Dict String String) → Dict String String → Bool
  | none, _ => false
  | some d, b => pyDictEq d b

/-- Log lines of `map_name_to_srm` that carry specification-relevant data:
the fallback advisory (line 312), the consistency debug line (line 317) and
the inconsistency warning (line 319, identifying the sample and both maps). -/
inductive LogEntry where
  | infoUsingBc (k : String)
  | debugConsistent (k : String)
  | warnInconsistent (k : String) (ps_map : Option (Dict String String))
      (bc_map : Dict String String)
deriving DecidableEq

/-- The barcode-map dict comprehension of line 313:
`{s["name"]: s["_id"] for s in srm_samples if _match_project_name_to_barcode_name(k, s.get("barcode_name", None))}`.
A `None` element of `srm_samples` raises `AttributeError` at `s.get`; a
matcher failure propagates. -/
def bcMapCompute (k : String) : List (Option SrmDoc) → Dict String String →
    Except PyErr (Dict String String)
  | [], acc => Except.ok acc
  | s :: rest, acc =>
    match s with
    | none => Except.error PyErr.attributeError
    | some d =>
      match _match_project_name_to_barcode_name k d.barcode_name with
      | Except.error e => Except.error e
      | Except.ok b => bcMapCompute k rest (bif b then dinsert acc d.name d.docId else acc)

/-- The `if use_ps_map:` part of a loop iteration (source lines 308-310):
the curated `ps_map` local (wrapped in an outer `some` when it was
assigned) and the updated sample map. -/
def psStep (ups : Bool) (m0 : Dict String Cell) (k : String) (v : PrjSampleDoc) :
    Option (Option (Dict String String)) × Dict String Cell :=
  bif ups then
    let pm := _get_sample_run_metrics v
    (some pm, dinsert m0 k (_prune_ps_map pm))
  else (none, m0)

/-- The `if check_consistency:` block of lines 315-319: compare the local
`ps_map` (unbound when `use_ps_map` never ran, raising `UnboundLocalError`
-- unreachable because the flag forcing sets it) with `bc_map` and log the
outcome. -/
def ccStep (cc : Bool) (psm : Option (Option (Dict String String)))
    (bcm : Dict String String) (m2 : Dict String Cell) (log1 : List LogEntry)
    (k : String) : Except PyErr (Dict String Cell × List LogEntry) :=
  bif cc then
    match psm with
    | some pm =>
      bif pyEqOptDict pm bcm then Except.ok (m2, log1 ++ [LogEntry.debugConsistent k])
      else Except.ok (m2, log1 ++ [LogEntry.warnInconsistent k pm bcm])
    | none => Except.error PyErr.unboundLocalError
  else Except.ok (m2, log1)

/-- One iteration of the `map_name_to_srm` loop (source lines 303-319) on a
project sample `(k, v)`, threading the sample map and the log.  First
`sample_map[k] = None`, then the curated step, then -- when `use_bc_map` is
set or the current cell is falsy (with the advisory logged in the falsy
case) -- the barcode map overwrites the cell, and finally the consistency
check.  The caller passes effective flags: inside the loop
`check_consistency` forces both `use_ps_map` and `use_bc_map` to `True`
before either is read, which is equivalent to or-ing `cc` into both. -/
def reconOne (srm : List (Option SrmDoc)) (ups ubc cc : Bool)
    (st : Dict String Cell × List LogEntry) (k : String) (v : PrjSampleDoc) :
    Except PyErr (Dict String Cell × List LogEntry) :=
  bif ubc || !truthyCell ((dlookup (psStep ups (dinsert st.1 k none) k v).2 k).getD none) then
    match bcMapCompute k srm [] with
    | Except.error e => Except.error e
    | Except.ok bcm =>
      ccStep cc (psStep ups (dinsert st.1 k none) k v).1 bcm
        (dinsert (psStep ups (dinsert st.1 k none) k v).2 k (some bcm))
        (bif !truthyCell ((dlookup (psStep ups (dinsert st.1 k none) k v).2 k).getD none)
          then st.2 ++ [LogEntry.infoUsingBc k] else st.2)
        k
  else
    bif cc then Except.error PyErr.unboundLocalError
    else Except.ok ((psStep ups (dinsert st.1 k none) k v).2, st.2)

/-- The `for k, v in project_samples.items()` loop of `map_name_to_srm`. -/
def reconFold (srm : List (Option SrmDoc)) (ups ubc cc : Bool) :
    List (String × PrjSampleDoc) → (Dict String Cell × List LogEntry) →
    Except PyErr (Dict String Cell × List LogEntry)
  | [], st => Except.ok st
  | kv :: rest, st =>
    match reconOne srm ups ubc cc st kv.1 kv.2 with
    | Except.error e => Except.error e
    | Except.ok st' => reconFold srm ups ubc cc rest st'

/-- `map_name_to_srm` (source lines 284-320).  Returns Python `None` when the
project id is unknown (or the fetched document is falsy) or when the project
has no `samples` field; otherwise the per-sample map together with the log.
The fresh `SampleRunMetricsConnection` the method builds is the `scon`
argument. -/
def map_name_to_srm (pcon : ProjConn) (scon : SRMConn) (project_id : String)
    (fc_id : Option String) (use_ps_map use_bc_map check_consistency : Bool) :
    Except PyErr (Option (Dict String Cell) × List LogEntry) :=
  match get_entryP pcon project_id with
  | none => Except.ok (none, [])
  | some project =>
    match project.samples with
    | none => Except.ok (none, [])
    | some project_samples =>
      let srm_samples := get_samples scon fc_id (some project_id)
      let ups := use_ps_map || check_consistency
      let ubc := use_bc_map || check_consistency
      match reconFold srm_samples ups ubc check_consistency project_samples ([], []) with
      | Except.error e => Except.error e
      | Except.ok (m, log) => Except.ok (some m, log)

/-- A value of the `map_srm_to_name` result: the project sample name and the
storage id (`None` for the `NOSRM_` placeholder). -/
structure SrmEntry where
  sample : String
  id : Option String
deriving DecidableEq

/-- One iteration of the `map_srm_to_name` loop (source lines 275-281):
falsy cells yield the `NOSRM_` placeholder (when `include_all`), truthy
cells are inverted into the run-identifier-keyed dictionary. -/
def srmFoldStep (include_all : Bool) (acc : Dict String SrmEntry) (kv : String × Cell) :
    Dict String SrmEntry :=
  bif !truthyCell kv.2 then
    bif include_all then dinsert acc ("NOSRM_" ++ kv.1) ⟨kv.1, none⟩ else acc
  else
    match kv.2 with
    | some d => d.foldl (fun a xy => dinsert a xy.1 ⟨kv.1, some xy.2⟩) acc
    | none => acc

/-- `map_srm_to_name` (source lines 266-282).  When `map_name_to_srm`
returns `None`, the iteration `samples.items()` raises `AttributeError`. -/
def map_srm_to_name (pcon : ProjConn) (scon : SRMConn) (project_id : String)
    (include_all : Bool) (fc_id : Option String)
    (use_ps_map use_bc_map check_consistency : Bool) :
    Except PyErr (Dict String SrmEntry × List LogEntry) :=
  match map_name_to_srm pcon scon project_id fc_id use_ps_map use_bc_map check_consistency with
  | Except.error e => Except.error e
  | Except.ok (none, _) => Except.error PyErr.attributeError
  | Except.ok (some samples, log) =>
    Except.ok (samples.foldl (srmFoldStep include_all) [], log)

/-! ### The document upsert resolver (`update_fn`) -/

/-- A generic status document: a Python dictionary whose values are strings
or `None`. -/
abbrev Doc := List (String × Option String)

/-- `d.get(k, None)` on a document (a stored `None` and an absent key are
indistinguishable, as in the source's `equal`). -/
def pyGet (d : Doc) (k : String) : Option String :=
  match dlookup d k with
  | some v => v
  | none => none

/-- `d[k]` on a document: `KeyError` when the key is absent. -/
def pyGetItem (d : Doc) (k : String) : Except PyErr (Option String) :=
  match dlookup d k with
  | some v => Except.ok v
  | none => Except.error PyErr.keyError

/-- The fields `equal` ignores (source lines 450-451). -/
def volatileKeys : List String := ["_id", "_rev", "creation_time", "modification_time"]

/-- The inner `equal(a, b)` of `update_fn` (source lines 449-453):
content equality over the union of both key sets minus the volatile keys. -/
def equalFn (a b : Doc) : Bool :=
  let a_keys := (a.map Prod.fst).filter (fun x => !(volatileKeys.contains x))
  let b_keys := (b.map Prod.fst).filter (fun x => !(volatileKeys.contains x))
  let keys := pyListSet (a_keys ++ b_keys)
  keys.all (fun k => pyGet a k == pyGet b k)

/-- The couch database as seen by `update_fn`: `db.view(name)` and
`db.get(id, None)`. -/
structure CouchDb where
  viewRows : String → List ViewRow
  docs : String → Option Doc

/-- The resolver logic of `update_fn` from the `db.view(...)` call onward
(source lines 455-471), with the view name parameter actually consulted --
the behaviour the function's own docstring describes.  `t_utc` is the
timestamp `utc_time()` computed on entry. -/
def update_fn_body (db : CouchDb) (obj : Doc) (t_utc : String) (vn : String) :
    Except PyErr (Option Doc × Option ViewRow) :=
  let view := db.viewRows vn
  let d_view : Dict (Option String) ViewRow := view.foldl (fun acc r => dinsert acc r.value r) []
  match pyGetItem obj "name" with
  | Except.error e => Except.error e
  | Except.ok nm =>
    let dbid := dlookup d_view nm
    let dbobj := match dbid with
      | some r => db.docs r.id
      | none => none
    match dbobj with
    | none =>
      Except.ok (some (dinsert obj "creation_time" (some t_utc)), dbid)
    | some dobj =>
      bif equalFn obj dobj then Except.ok (none, dbid)
      else
        let o1 := dinsert obj "creation_time" (pyGet dobj "creation_time")
        let o2 := dinsert o1 "modification_time" (some t_utc)
        let o3 := dinsert o2 "_rev" (pyGet dobj "_rev")
        let o4 := dinsert o3 "_id" (pyGet dobj "_id")
        Except.ok (some o4, dbid)

/-- Every name bound in the module `scilifelab.db.statusdb` (imports and
top-level definitions) together with the local names in scope inside
`update_fn` at line 455.  `view_name` is not among them. -/
def update_fn_module_names : List String :=
  ["re", "izip", "Couch", "utc_time", "uuid4", "VIEWS", "calc_avg_qv",
   "_match_project_name_to_barcode_name", "sample_map_fn_id", "_prune_ps_map",
   "SampleRunMetricsConnection", "FlowcellRunMetricsConnection",
   "ProjectSummaryConnection", "status_document", "project_summary",
   "flowcell_run_metrics", "sample_run_metrics", "update_fn",
   "db", "obj", "viewname", "t_utc", "equal"]

/-- `update_fn` (source lines 440-471) as written: its first database
operation is `db.view(view_name)`, but the parameter is named `viewname` and
no binding for `view_name` exists in any enclosing scope, so evaluating the
identifier raises `NameError` before any lookup or comparison happens. -/
def update_fn (db : CouchDb) (obj : Doc) (t_utc : String) (viewname : String) :
    Except PyErr (Option Doc × Option ViewRow) :=
  bif update_fn_module_names.contains "view_name" then
    update_fn_body db obj t_utc viewname
  else Except.error PyErr.nameError

/-! ### Concrete store states used by counterexamples and witnesses -/

/-- A project connection with an empty `project_id` view. -/
def pconEmpty : ProjConn := ⟨[], fun _ => none⟩

/-- A sample-run connection with empty views and an empty store. -/
def sconEmpty : SRMConn := ⟨[], [], fun _ => none⟩

/-- A curated run-metrics map with one well-formed run identifier. -/
def cC6 : Dict String String := [("1_240101_FC1_ACGT", "cid1")]

/-- A project sample with a flat curated map. -/
def vC6 : PrjSampleDoc := ⟨none, some cC6⟩

/-- A project with the single declared sample `S1`. -/
def projC6 : ProjDoc := ⟨some [("S1", vC6)]⟩

/-- Project store holding `projC6` under project id `PRJ`. -/
def pconC6 : ProjConn :=
  ⟨[("PRJ", "pdoc1")], fun i => bif i == "pdoc1" then some projC6 else none⟩

/-- A project sample with no curated information at all. -/
def vPlain : PrjSampleDoc := ⟨none, none⟩

/-- A project with two declared samples `P1` and `P1_2`, both uncurated. -/
def projC7 : ProjDoc := ⟨some [("P1", vPlain), ("P1_2", vPlain)]⟩

/-- Project store holding `projC7` under project id `PRJ7`. -/
def pconC7 : ProjConn :=
  ⟨[("PRJ7", "pdoc7")], fun i => bif i == "pdoc7" then some projC7 else none⟩

/-- One sample-run record whose barcode name is matched by both `P1` and
`P1_2`. -/
def srmDocC7 : SrmDoc := ⟨"x1", "id1", some "P1_2_AAC", none, some "PRJ7"⟩

/-- Sample-run store indexing `srmDocC7` under project `PRJ7`. -/
def sconC7 : SRMConn :=
  ⟨[], [⟨"x1", "id1", some "PRJ7"⟩], fun i => bif i == "id1" then some srmDocC7 else none⟩

/-- A project with the single declared, never-sequenced sample
`NoCoverage1`. -/
def projC8 : ProjDoc := ⟨some [("NoCoverage1", vPlain)]⟩

/-- Project store holding `projC8` under project id `PRJ8`. -/
def pconC8 : ProjConn :=
  ⟨[("PRJ8", "pdoc8")], fun i => bif i == "pdoc8" then some projC8 else none⟩

/-- A sample-run store whose `name_proj` view has one row under project `p`
and whose `name_fc` view is empty. -/
def sconC3 : SRMConn := ⟨[], [⟨"s1", "id1", some "p"⟩], fun _ => none⟩

/-- The `id_to_name` view row for the stored document `dbobjC1`. -/
def rowC1 : ViewRow := ⟨"docid1", "docid1", some "mydoc"⟩

/-- A candidate document whose content equals the stored `dbobjC1`. -/
def objC1 : Doc :=
  [("name", some "mydoc"), ("entity_type", some "sample_run_metrics"), ("lane", some "1")]

/-- The stored document, with storage id, concurrency token and
timestamps. -/
def dbobjC1 : Doc :=
  [("_id", some "docid1"), ("_rev", some "1-abc"),
   ("name", some "mydoc"), ("entity_type", some "sample_run_metrics"), ("lane", some "1"),
   ("creation_time", some "2024-01-01T00:00:00Z"), ("modification_time", none)]

/-- A couch database holding `dbobjC1`, with `names/id_to_name` mapping its
name `mydoc` to its id. -/
def dbC1 : CouchDb :=
  ⟨fun vn => bif vn == "names/id_to_name" then [rowC1] else [],
   fun i => bif i == "docid1" then some dbobjC1 else none⟩

/-- A candidate document differing from `dbobjC1` in the `lane` field. -/
def objC9 : Doc :=
  [("name", some "mydoc"), ("creation_time", some "2024-06-01T00:00:00Z"),
   ("modification_time", none), ("lane", some "2"),
   ("entity_type", some "sample_run_metrics")]

/-- The document the resolver logic produces for `objC9`: existing
creation time restored, modification time stamped, storage id and
concurrency token copied, every other candidate field unchanged. -/
def objC9updated : Doc :=
  [("name", some "mydoc"), ("creation_time", some "2024-01-01T00:00:00Z"),
   ("modification_time", some "NOW"), ("lane", some "2"),
   ("entity_type", some "sample_run_metrics"),
   ("_rev", some "1-abc"), ("_id", some "docid1")]

/-! ### Claim theorems: the upsert resolver and the matcher -/

/-- C10: for every database, object, timestamp and view-name argument,
`update_fn` as written raises `NameError` (it reads `view_name` while its
parameter is named `viewname`) before reaching any lookup, comparison or
return branch, so no call to it returns a (document, id) pair. -/
theorem update_fn_always_name_error (db : CouchDb) (obj : Doc) (t_utc viewname : String) :
    update_fn db obj t_utc viewname = Except.error PyErr.nameError := rfl

/-- C1: on a store whose existing document `dbobjC1` is content-equal to the
candidate `objC1` (ignoring storage id, concurrency token and timestamps),
`update_fn` does not return `(None, existing-id)` as claimed: it raises
`NameError`.  The resolver logic from line 455 onward (`update_fn_body`,
the behaviour the docstring describes) would return `(None, existing-id)`
with no document to write. -/
theorem update_fn_equal_no_write_bug :
    update_fn dbC1 objC1 "NOW" "names/id_to_name" = Except.error PyErr.nameError ∧
    update_fn_body dbC1 objC1 "NOW" "names/id_to_name" = Except.ok (none, some rowC1) :=
  ⟨rfl, rfl⟩

/-- C9: on a store whose existing document differs from the candidate
`objC9` in a content field, `update_fn` does not return the updated
candidate as claimed: it raises `NameError`.  The resolver logic from line
455 onward would return the candidate with the existing creation time
copied onto it, its modification time stamped to now, the existing storage
id and concurrency token copied onto it, all other candidate fields
unchanged, together with the existing id. -/
theorem update_fn_update_branch_bug :
    update_fn dbC1 objC9 "NOW" "names/id_to_name" = Except.error PyErr.nameError ∧
    update_fn_body dbC1 objC9 "NOW" "names/id_to_name" =
      Except.ok (some objC9updated, some rowC1) :=
  ⟨rfl, rfl⟩

/-- C2 counterexample: the matcher is not total on arbitrary string inputs.
For the non-`P` project sample name `X` and the run identifier `abc`, the
pattern `(\d+)_?([A-Z])?_` finds no match and `.group(1)` raises
`AttributeError`, refuting "never raises an error". -/
theorem matcher_attribute_error_cex :
    _match_project_name_to_barcode_name "X" (some "abc") =
      Except.error PyErr.attributeError := rfl

/-- C2 amended: the matcher is deterministic (it is a function of its
arguments), and it is total on every input whose project sample name starts
with `P`: for those it always returns a boolean and never raises. -/
theorem matcher_total_on_p_names (n : String) (r : Option String)
    (h : pyStartswith n "P" = true) :
    ∃ b, _match_project_name_to_barcode_name n r = Except.ok b :=
  ⟨pBranch n (pyStr r), by simp [_match_project_name_to_barcode_name, h]⟩

/-- Witness for `matcher_total_on_p_names` at the concrete pair
`("P123", "P999_1")`. -/
theorem matcher_total_on_p_names_witness :
    pyStartswith "P123" "P" = true ∧
    ∃ b, _match_project_name_to_barcode_name "P123" (some "P999_1") = Except.ok b :=
  ⟨by decide, matcher_total_on_p_names "P123" (some "P999_1") (by decide)⟩

/-- One trailing character of the set stripped, as the specification words
C5: remove the last character if it equals `c`, otherwise leave the name. -/
def stripOneTrailing (n : String) (c : Char) : String :=
  bif (match n.toList.reverse with | x :: _ => x == c | [] => false) then
    String.mk n.toList.dropLast
  else n

/-- Modelled from the spec: the C5 matching rule for `P`-prefixed names as
the specification states it -- the run identifier starts with the project
sample name literally, or with the name after stripping any one trailing
character from `{F, B, C, D, E}`. -/
def matchesSpecC5 (n r : String) : Bool :=
  pyStartswith r n ||
    (['F', 'B', 'C', 'D', 'E'].any fun c => pyStartswith r (stripOneTrailing n c))

/-- C5 counterexample: for `project_sample_name = "P1C"` and
`run_identifier = "P1_1"` the specification's rule (strip one trailing
`C`) matches, but the code returns `false`: the matcher only tries
`rstrip("F")` and `rstrip("B")`, never `C`, `D` or `E`. -/
theorem matcher_p_rule_cex :
    matchesSpecC5 "P1C" "P1_1" = true ∧
    _match_project_name_to_barcode_name "P1C" (some "P1_1") = Except.ok false :=
  ⟨rfl, rfl⟩

/-- C5 amended: for every project sample name starting with `P`, the matcher
returns `true` exactly when the run identifier starts with the name
literally, or with the name after removing every trailing `F`, or with the
name after removing every trailing `B` -- only the letters `F` and `B` are
tried, each via `rstrip` (removing all trailing occurrences, not one). -/
theorem matcher_p_rule (n r : String) (h : pyStartswith n "P" = true) :
    _match_project_name_to_barcode_name n (some r) = Except.ok true ↔
      (pyStartswith r n = true ∨ pyStartswith r (rstripAll n 'F') = true ∨
        pyStartswith r (rstripAll n 'B') = true) := by
  simp only [_match_project_name_to_barcode_name, h, cond_true, pyStr]
  cases h1 : pyStartswith r n <;>
    cases h2 : pyStartswith r (rstripAll n 'F') <;>
      cases h3 : pyStartswith r (rstripAll n 'B') <;>
        simp [pBranch, h1, h2, h3]

/-- Witness for `matcher_p_rule` at the concrete pair
`("P123", "P123B_AACC")` from the specification's examples. -/
theorem matcher_p_rule_witness :
    pyStartswith "P123" "P" = true ∧
    (_match_project_name_to_barcode_name "P123" (some "P123B_AACC") = Except.ok true ↔
      (pyStartswith "P123B_AACC" "P123" = true ∨
        pyStartswith "P123B_AACC" (rstripAll "P123" 'F') = true ∨
        pyStartswith "P123B_AACC" (rstripAll "P123" 'B') = true)) :=
  ⟨by decide, matcher_p_rule "P123" "P123B_AACC" (by decide)⟩

/-! ### Set-semantics lemmas for `get_sample_ids` -/

/-- Membership in the dedup fold underlying `pyListSet`. -/
theorem mem_pyListSet_go (l : List String) :
    ∀ (acc : List String) (x : String),
      (x ∈ l.foldl (fun acc y => if acc.contains y then acc else acc ++ [y]) acc ↔
        x ∈ acc ∨ x ∈ l) := by
  induction l with
  | nil => intro acc x; simp
  | cons y ys ih =>
    intro acc x
    simp only [List.foldl_cons]
    by_cases hy : acc.contains y
    · rw [if_pos hy, ih]
      have hy' : y ∈ acc := by simpa using hy
      constructor
      · rintro (h | h)
        · exact Or.inl h
        · exact Or.inr (List.mem_cons_of_mem _ h)
      · rintro (h | h)
        · exact Or.inl h
        · rcases List.mem_cons.mp h with h | h
          · exact Or.inl (h ▸ hy')
          · exact Or.inr h
    · rw [if_neg hy, ih]
      simp only [List.mem_append, List.mem_singleton, List.mem_cons]
      tauto

/-- `list(set(l))` has the same elements as `l`. -/
theorem mem_pyListSet (l : List String) (x : String) : x ∈ pyListSet l ↔ x ∈ l := by
  rw [pyListSet, mem_pyListSet_go]
  simp

/-- `pyUnion` computes the union, as a finite set. -/
theorem toFinset_pyUnion (a b : List String) :
    (pyUnion a b).toFinset = a.toFinset ∪ b.toFinset := by
  ext x
  simp [pyUnion, mem_pyListSet]

/-- `pyIntersect` computes the intersection, as a finite set. -/
theorem toFinset_pyIntersect (a b : List String) :
    (pyIntersect a b).toFinset = a.toFinset ∩ b.toFinset := by
  ext x
  simp [pyIntersect, mem_pyListSet, List.mem_filter]

/-- C3 amended: `get_sample_ids` with neither filter truthy returns the
empty list; with one filter it returns exactly that filter's candidate set;
with both filters it returns the intersection of the two candidate sets
only when both are non-empty, and their union otherwise (so when one
filter's candidates are empty, the other filter's candidates are returned
instead of the empty intersection). -/
theorem get_sample_ids_filter_semantics (scon : SRMConn) (f p : Option String) :
    get_sample_ids scon none none = [] ∧
    (get_sample_ids scon f none).toFinset = (fcCandidates scon f).toFinset ∧
    (get_sample_ids scon none p).toFinset = (prjCandidates scon p).toFinset ∧
    (get_sample_ids scon f p).toFinset =
      (if fcCandidates scon f ≠ [] ∧ prjCandidates scon p ≠ [] then
        (fcCandidates scon f).toFinset ∩ (prjCandidates scon p).toFinset
      else (fcCandidates scon f).toFinset ∪ (prjCandidates scon p).toFinset) := by
  refine ⟨rfl, ?_, ?_, ?_⟩
  · have hp : prjCandidates scon none = [] := rfl
    rw [get_sample_ids, hp]
    simp [toFinset_pyUnion]
  · have hf : fcCandidates scon none = [] := rfl
    rw [get_sample_ids, hf]
    simp [toFinset_pyUnion]
  · by_cases h : fcCandidates scon f ≠ [] ∧ prjCandidates scon p ≠ []
    · rw [get_sample_ids, if_pos ⟨List.length_pos.mpr h.1, List.length_pos.mpr h.2⟩,
        if_pos h, toFinset_pyIntersect]
    · have h' : ¬ (0 < (fcCandidates scon f).length ∧ 0 < (prjCandidates scon p).length) := by
        intro hc
        exact h ⟨List.length_pos.mp hc.1, List.length_pos.mp hc.2⟩
      rw [get_sample_ids, if_neg h', if_neg h, toFinset_pyUnion]

/-- C3 counterexample: on a store where the flowcell filter has no
candidates but the project filter has one, the both-filters call returns
the project candidates (the union), which is neither a subset of nor equal
to the intersection of the two per-filter results -- refuting the claimed
intersection property for every pair of given filters. -/
theorem get_sample_ids_intersection_cex :
    get_sample_ids sconC3 (some "f") (some "p") = ["id1"] ∧
    get_sample_ids sconC3 (some "f") none = [] ∧
    get_sample_ids sconC3 none (some "p") = ["id1"] ∧
    ¬ ((get_sample_ids sconC3 (some "f") (some "p")).toFinset ⊆
        (get_sample_ids sconC3 (some "f") none).toFinset ∩
          (get_sample_ids sconC3 none (some "p")).toFinset) ∧
    (get_sample_ids sconC3 (some "f") (some "p")).toFinset ≠
      (get_sample_ids sconC3 (some "f") none).toFinset ∩
        (get_sample_ids sconC3 none (some "p")).toFinset := by
  refine ⟨rfl, rfl, rfl, ?_, ?_⟩ <;> decide

/-! ### Claim theorems: unknown project ids -/

/-- C4 counterexample: for a project id absent from the project store,
`map_name_to_srm` does not raise any error -- there is no `NotFoundError`
anywhere in the module -- it returns the value Python `None` (together with
an empty log), refuting "fails by raising a NotFoundError ... rather than
returning a value". -/
theorem map_name_to_srm_no_notfound_cex :
    map_name_to_srm pconEmpty sconEmpty "NOPROJ" none true false false =
      Except.ok (none, []) := rfl

/-- C4 amended: for every project id not present in the project store's
`project_id` view, `map_name_to_srm` returns Python `None` normally (after
`get_entry` logs a warning); no exception propagates to the caller. -/
theorem map_name_to_srm_unknown_project_none (pcon : ProjConn) (scon : SRMConn)
    (pid : String) (fc : Option String) (a b c : Bool)
    (h : dlookup pcon.name_view pid = none) :
    map_name_to_srm pcon scon pid fc a b c = Except.ok (none, []) := by
  rw [map_name_to_srm, get_entryP, h]

/-- Witness for `map_name_to_srm_unknown_project_none` on the empty project
store and the project id `NOPROJ`. -/
theorem map_name_to_srm_unknown_project_none_witness :
    dlookup pconEmpty.name_view "NOPROJ" = none ∧
    map_name_to_srm pconEmpty sconEmpty "NOPROJ" none false true true =
      Except.ok (none, []) :=
  ⟨rfl, map_name_to_srm_unknown_project_none pconEmpty sconEmpty "NOPROJ" none
    false true true rfl⟩

/-! ### Dictionary lemmas -/

/-- Looking up the key just assigned yields the assigned value. -/
theorem dlookup_dinsert_self {κ α : Type} [DecidableEq κ] (d : Dict κ α) (k : κ) (v : α) :
    dlookup (dinsert d k v) k = some v := by
  induction d with
  | nil => simp [dinsert, dlookup]
  | cons kv rest ih =>
    by_cases h : kv.1 = k
    · simp [dinsert, dlookup, h]
    · simpa [dinsert, dlookup, h] using ih

/-- Assigning one key leaves every other key's lookup unchanged. -/
theorem dlookup_dinsert_ne {κ α : Type} [DecidableEq κ] (d : Dict κ α) (k key : κ) (v : α)
    (h : k ≠ key) :
    dlookup (dinsert d k v) key = dlookup d key := by
  induction d with
  | nil => simp [dinsert, dlookup, h]
  | cons kv rest ih =>
    by_cases hk : kv.1 = k
    · simp [dinsert, dlookup, hk, h]
    · by_cases hkey : kv.1 = key
      · simp [dinsert, dlookup, hk, hkey, Ne.symm h]
      · simpa [dinsert, dlookup, hk, hkey] using ih

/-- The key set after an assignment: the old keys plus the assigned key. -/
theorem mem_keys_dinsert {κ α : Type} [DecidableEq κ] (d : Dict κ α) (k : κ) (v : α)
    (x : κ) :
    x ∈ (dinsert d k v).map Prod.fst ↔ x ∈ d.map Prod.fst ∨ x = k := by
  induction d with
  | nil => simp [dinsert]
  | cons kv rest ih =>
    by_cases h : kv.1 = k
    · simp only [dinsert, if_pos h, List.map_cons, List.mem_cons]
      rw [h]
      tauto
    · simp only [dinsert, if_neg h, List.map_cons, List.mem_cons, ih]
      tauto

/-- Assignment preserves uniqueness of keys. -/
theorem nodup_keys_dinsert {κ α : Type} [DecidableEq κ] (d : Dict κ α) (k : κ) (v : α)
    (h : (d.map Prod.fst).Nodup) : ((dinsert d k v).map Prod.fst).Nodup := by
  induction d with
  | nil => simp [dinsert]
  | cons kv rest ih =>
    rw [List.map_cons, List.nodup_cons] at h
    by_cases hk : kv.1 = k
    · simp only [dinsert, if_pos hk, List.map_cons, List.nodup_cons]
      exact ⟨hk ▸ h.1, h.2⟩
    · simp only [dinsert, if_neg hk, List.map_cons, List.nodup_cons]
      refine ⟨?_, ih h.2⟩
      rw [mem_keys_dinsert]
      rintro (hm | hm)
      · exact h.1 hm
      · exact hk hm

/-- Appending a fixed string on the left is injective. -/
theorem string_append_left_cancel (a x y : String) (h : a ++ x = a ++ y) : x = y := by
  have hd : a.data ++ x.data = a.data ++ y.data := by
    have hx : (a ++ x).data = a.data ++ x.data := rfl
    have hy : (a ++ y).data = a.data ++ y.data := rfl
    rw [← hx, ← hy, h]
  cases x with
  | mk xd =>
    cases y with
    | mk yd =>
      simp only at hd
      rw [List.append_cancel_left hd]

/-! ### Claim theorems: the run-identifier-keyed output (`map_srm_to_name`) -/

/-- The inversion fold of a truthy cell preserves key uniqueness. -/
theorem nodup_keys_inner_fold (k0 : String) (d : Dict String String) :
    ∀ acc : Dict String SrmEntry, ((acc.map Prod.fst).Nodup) →
      (((d.foldl (fun a xy => dinsert a xy.1 ⟨k0, some xy.2⟩) acc).map Prod.fst).Nodup) := by
  induction d with
  | nil => intro acc h; exact h
  | cons xy rest ih =>
    intro acc h
    simp only [List.foldl_cons]
    exact ih _ (nodup_keys_dinsert _ _ _ h)

/-- One `map_srm_to_name` iteration preserves key uniqueness. -/
theorem nodup_keys_srmFoldStep (ia : Bool) (acc : Dict String SrmEntry)
    (kv : String × Cell) (h : (acc.map Prod.fst).Nodup) :
    ((srmFoldStep ia acc kv).map Prod.fst).Nodup := by
  cases htr : truthyCell kv.2 with
  | false =>
    cases ia with
    | false => simpa [srmFoldStep, htr] using h
    | true =>
      have : srmFoldStep true acc kv = dinsert acc ("NOSRM_" ++ kv.1) ⟨kv.1, none⟩ := by
        simp [srmFoldStep, htr]
      rw [this]
      exact nodup_keys_dinsert _ _ _ h
  | true =>
    cases hcell : kv.2 with
    | none => rw [hcell] at htr; simp [truthyCell] at htr
    | some d =>
      rw [hcell] at htr
      have : srmFoldStep ia acc kv =
          d.foldl (fun a xy => dinsert a xy.1 ⟨kv.1, some xy.2⟩) acc := by
        simp [srmFoldStep, hcell, htr]
      rw [this]
      exact nodup_keys_inner_fold _ _ _ h

/-- The whole `map_srm_to_name` fold preserves key uniqueness. -/
theorem nodup_keys_srmFold (ia : Bool) (l : List (String × Cell)) :
    ∀ acc : Dict String SrmEntry, ((acc.map Prod.fst).Nodup) →
      (((l.foldl (srmFoldStep ia) acc).map Prod.fst).Nodup) := by
  induction l with
  | nil => intro acc h; exact h
  | cons kv rest ih =>
    intro acc h
    simp only [List.foldl_cons]
    exact ih _ (nodup_keys_srmFoldStep ia acc kv h)

/-- C7 amended: the run-identifier-to-sample output of `map_srm_to_name` is
a dictionary with unique run-identifier keys: when the matcher associates
one run identifier with several project sample names, only the
last-processed association is kept (the dictionary update overwrites the
earlier one); both associations survive only in the sample-keyed
`map_name_to_srm` view. -/
theorem map_srm_to_name_keys_nodup (pcon : ProjConn) (scon : SRMConn) (pid : String)
    (ia : Bool) (fc : Option String) (a b c : Bool)
    (out : Dict String SrmEntry) (log : List LogEntry)
    (h : map_srm_to_name pcon scon pid ia fc a b c = Except.ok (out, log)) :
    (out.map Prod.fst).Nodup := by
  cases hm : map_name_to_srm pcon scon pid fc a b c with
  | error e => rw [map_srm_to_name, hm] at h; simp at h
  | ok pr =>
    obtain ⟨s, l⟩ := pr
    cases s with
    | none => rw [map_srm_to_name, hm] at h; simp at h
    | some samples =>
      rw [map_srm_to_name, hm] at h
      simp only [Except.ok.injEq, Prod.mk.injEq] at h
      rw [← h.1]
      exact nodup_keys_srmFold ia samples [] (by simp)

/-- Witness for `map_srm_to_name_keys_nodup` on the `PRJ7` store, where the
computed output is the singleton dictionary for run identifier `x1`. -/
theorem map_srm_to_name_keys_nodup_witness :
    (([("x1", (⟨"P1_2", some "id1"⟩ : SrmEntry))] : Dict String SrmEntry).map
      Prod.fst).Nodup :=
  map_srm_to_name_keys_nodup pconC7 sconC7 "PRJ7" true none true false false
    [("x1", ⟨"P1_2", some "id1"⟩)] [LogEntry.infoUsingBc "P1", LogEntry.infoUsingBc "P1_2"]
    rfl

/-- C7 counterexample: on the `PRJ7` store the matcher associates the single
run identifier `x1` (barcode `P1_2_AAC`) with both declared samples `P1`
and `P1_2` -- both pairs are present in `map_name_to_srm` -- yet
`map_srm_to_name` returns one entry only, keyed `x1` and carrying the
later sample `P1_2`: the association with `P1` is dropped, refuting "both
associations are retained". -/
theorem map_srm_to_name_dedup_cex :
    map_name_to_srm pconC7 sconC7 "PRJ7" none true false false =
      Except.ok (some [("P1", some [("x1", "id1")]), ("P1_2", some [("x1", "id1")])],
        [LogEntry.infoUsingBc "P1", LogEntry.infoUsingBc "P1_2"]) ∧
    map_srm_to_name pconC7 sconC7 "PRJ7" true none true false false =
      Except.ok ([("x1", ⟨"P1_2", some "id1"⟩)],
        [LogEntry.infoUsingBc "P1", LogEntry.infoUsingBc "P1_2"]) ∧
    dlookup [("x1", (⟨"P1_2", some "id1"⟩ : SrmEntry))] "x1" ≠
      some ⟨"P1", some "id1"⟩ :=
  ⟨rfl, rfl, by decide⟩

/-! ### Claim theorems: the `NOSRM_` placeholder (C8) -/

/-- A lookup is unchanged by the inversion fold when no inserted run
identifier equals the key. -/
theorem dlookup_inner_fold_ne (k0 : String) (d : Dict String String) :
    ∀ (acc : Dict String SrmEntry) (key : String), (∀ xy ∈ d, xy.1 ≠ key) →
      dlookup (d.foldl (fun a xy => dinsert a xy.1 ⟨k0, some xy.2⟩) acc) key =
        dlookup acc key := by
  induction d with
  | nil => intro acc key _; rfl
  | cons xy rest ih =>
    intro acc key hne
    simp only [List.foldl_cons]
    rw [ih _ _ (fun p hp => hne p (List.mem_cons_of_mem _ hp))]
    exact dlookup_dinsert_ne _ _ _ _ (hne xy (List.mem_cons_self _ _))

/-- Once the `NOSRM_` placeholder for `k` is in the accumulator, the
remaining iterations keep it, provided no later truthy cell contains the
placeholder key as a run identifier. -/
theorem dlookup_srmFold_suffix (k : String) (s2 : List (String × Cell)) :
    ∀ acc : Dict String SrmEntry,
      dlookup acc ("NOSRM_" ++ k) = some ⟨k, none⟩ →
      (∀ p ∈ s2, ∀ d, p.2 = some d → ("NOSRM_" ++ k) ∉ d.map Prod.fst) →
      dlookup (s2.foldl (srmFoldStep true) acc) ("NOSRM_" ++ k) = some ⟨k, none⟩ := by
  induction s2 with
  | nil => intro acc h _; exact h
  | cons p rest ih =>
    intro acc h hnc
    simp only [List.foldl_cons]
    apply ih
    · cases htr : truthyCell p.2 with
      | false =>
        have hstep : srmFoldStep true acc p =
            dinsert acc ("NOSRM_" ++ p.1) ⟨p.1, none⟩ := by
          simp [srmFoldStep, htr]
        rw [hstep]
        by_cases hk : p.1 = k
        · rw [hk, dlookup_dinsert_self]
        · rw [dlookup_dinsert_ne]
          · exact h
          · intro he; exact hk (string_append_left_cancel "NOSRM_" p.1 k he)
      | true =>
        cases hcell : p.2 with
        | none => rw [hcell] at htr; simp [truthyCell] at htr
        | some d =>
          rw [hcell] at htr
          have hstep : srmFoldStep true acc p =
              d.foldl (fun a xy => dinsert a xy.1 ⟨p.1, some xy.2⟩) acc := by
            simp [srmFoldStep, hcell, htr]
          rw [hstep, dlookup_inner_fold_ne]
          · exact h
          · intro xy hxy he
            exact (hnc p (List.mem_cons_self _ _) d hcell)
              (he ▸ (List.mem_map_of_mem Prod.fst hxy))
    · exact fun q hq => hnc q (List.mem_cons_of_mem _ hq)

/-- C8: for every declared project sample `k` whose reconciliation cell is
falsy (empty or `None`), a `map_srm_to_name` call requesting unmatched
samples (`include_all = true`) returns an output containing the sentinel
entry keyed `"NOSRM_" + k` with `None` storage id -- provided no later
sample's truthy cell uses the sentinel string itself as a run identifier
(run identifiers are derived `lane_date_flowcell_sequence` names, so this
cannot occur in real stores). -/
theorem map_srm_to_name_nosrm (pcon : ProjConn) (scon : SRMConn) (pid : String)
    (fc : Option String) (a b c : Bool) (k : String) (v : Cell)
    (s1 s2 : List (String × Cell)) (log : List LogEntry)
    (hm : map_name_to_srm pcon scon pid fc a b c =
      Except.ok (some (s1 ++ (k, v) :: s2), log))
    (hfalsy : truthyCell v = false)
    (hnc : ∀ p ∈ s2, ∀ d, p.2 = some d → ("NOSRM_" ++ k) ∉ d.map Prod.fst) :
    ∃ out, map_srm_to_name pcon scon pid true fc a b c = Except.ok (out, log) ∧
      dlookup out ("NOSRM_" ++ k) = some ⟨k, none⟩ := by
  refine ⟨(s1 ++ (k, v) :: s2).foldl (srmFoldStep true) [], ?_, ?_⟩
  · rw [map_srm_to_name, hm]
  · rw [List.foldl_append, List.foldl_cons]
    apply dlookup_srmFold_suffix k s2 _ _ hnc
    have hstep : srmFoldStep true (s1.foldl (srmFoldStep true) []) (k, v) =
        dinsert (s1.foldl (srmFoldStep true) []) ("NOSRM_" ++ k) ⟨k, none⟩ := by
      simp [srmFoldStep, hfalsy]
    rw [hstep, dlookup_dinsert_self]

/-- Witness for `map_srm_to_name_nosrm`: the specification's scenario -- the
declared, never-sequenced sample `NoCoverage1` yields the entry keyed
`NOSRM_NoCoverage1` with `None` id. -/
theorem map_srm_to_name_nosrm_witness :
    ∃ out, map_srm_to_name pconC8 sconEmpty "PRJ8" true none true false false =
        Except.ok (out, [LogEntry.infoUsingBc "NoCoverage1"]) ∧
      dlookup out ("NOSRM_" ++ "NoCoverage1") = some ⟨"NoCoverage1", none⟩ :=
  map_srm_to_name_nosrm pconC8 sconEmpty "PRJ8" none true false false
    "NoCoverage1" (some []) [] [] [LogEntry.infoUsingBc "NoCoverage1"]
    (by rfl) (by rfl) (by simp)

/-! ### Claim theorems: the consistency check (C6) -/

/-- The curated step's first component is the `ps_map` local, wrapped in
`some` exactly when `use_ps_map` ran. -/
theorem psStep_fst (a : Bool) (m0 : Dict String Cell) (k : String) (v : PrjSampleDoc) :
    (psStep a m0 k v).1 = bif a then some (_get_sample_run_metrics v) else none := by
  cases a <;> rfl

/-- The curated step only writes the processed key. -/
theorem psStep_lookup_ne (a : Bool) (m0 : Dict String Cell) (k : String)
    (v : PrjSampleDoc) (key : String) (h : k ≠ key) :
    dlookup (psStep a m0 k v).2 key = dlookup m0 key := by
  cases a with
  | false => rfl
  | true => exact dlookup_dinsert_ne _ _ _ _ h

/-- A successful consistency step returns the map it was given and only
appends to the log. -/
theorem ccStep_ok (c : Bool) (psm : Option (Option (Dict String String)))
    (bcm : Dict String String) (m2 : Dict String Cell) (log1 : List LogEntry)
    (k : String) (m' : Dict String Cell) (log' : List LogEntry)
    (h : ccStep c psm bcm m2 log1 k = Except.ok (m', log')) :
    m' = m2 ∧ ∃ tail, log' = log1 ++ tail := by
  cases c with
  | false =>
    simp only [ccStep, cond_false, Except.ok.injEq, Prod.mk.injEq] at h
    exact ⟨h.1.symm, [], by rw [List.append_nil]; exact h.2.symm⟩
  | true =>
    cases psm with
    | none => simp [ccStep] at h
    | some pm =>
      cases hc : pyEqOptDict pm bcm with
      | false =>
        simp only [ccStep, cond_true, hc, cond_false, Except.ok.injEq,
          Prod.mk.injEq] at h
        exact ⟨h.1.symm, [LogEntry.warnInconsistent k pm bcm], h.2.symm⟩
      | true =>
        simp only [ccStep, cond_true, hc, Except.ok.injEq, Prod.mk.injEq] at h
        exact ⟨h.1.symm, [LogEntry.debugConsistent k], h.2.symm⟩

/-- A successful consistency step with `check_consistency` on: the `ps_map`
local was assigned, the map is returned unchanged, and the comparison
outcome is appended to the log. -/
theorem ccStep_true_ok (psm : Option (Option (Dict String String)))
    (bcm : Dict String String) (m2 : Dict String Cell) (log1 : List LogEntry)
    (k : String) (m' : Dict String Cell) (log' : List LogEntry)
    (h : ccStep true psm bcm m2 log1 k = Except.ok (m', log')) :
    ∃ pm, psm = some pm ∧ m' = m2 ∧
      log' = log1 ++ [bif pyEqOptDict pm bcm then LogEntry.debugConsistent k
        else LogEntry.warnInconsistent k pm bcm] := by
  cases psm with
  | none => simp [ccStep] at h
  | some pm =>
    cases hc : pyEqOptDict pm bcm with
    | false =>
      simp only [ccStep, cond_true, hc, cond_false, Except.ok.injEq,
        Prod.mk.injEq] at h
      exact ⟨pm, rfl, h.1.symm, by rw [hc, cond_false]; exact h.2.symm⟩
    | true =>
      simp only [ccStep, cond_true, hc, Except.ok.injEq, Prod.mk.injEq] at h
      exact ⟨pm, rfl, h.1.symm, by rw [hc, cond_true]; exact h.2.symm⟩

/-- A successful loop iteration only writes the processed key and only
appends to the log. -/
theorem reconOne_preserve (srm : List (Option SrmDoc)) (a b c : Bool)
    (st : Dict String Cell × List LogEntry) (k : String) (v : PrjSampleDoc)
    (m' : Dict String Cell) (log' : List LogEntry)
    (h : reconOne srm a b c st k v = Except.ok (m', log')) :
    (∀ key, k ≠ key → dlookup m' key = dlookup st.1 key) ∧
    (∀ e ∈ st.2, e ∈ log') := by
  have hprev : ∀ key, k ≠ key →
      dlookup (psStep a (dinsert st.1 k none) k v).2 key = dlookup st.1 key := by
    intro key hne
    rw [psStep_lookup_ne a _ k v key hne, dlookup_dinsert_ne _ _ _ _ hne]
  unfold reconOne at h
  cases hcond : b ||
      !truthyCell ((dlookup (psStep a (dinsert st.1 k none) k v).2 k).getD none) with
  | false =>
    rw [hcond] at h
    cases c with
    | true => simp at h
    | false =>
      simp only [cond_false, Except.ok.injEq, Prod.mk.injEq] at h
      refine ⟨fun key hne => ?_, fun e he => ?_⟩
      · rw [← h.1]; exact hprev key hne
      · rw [← h.2]; exact he
  | true =>
    rw [hcond] at h
    simp only [cond_true] at h
    cases hbc : bcMapCompute k srm [] with
    | error e => rw [hbc] at h; simp at h
    | ok bcm =>
      rw [hbc] at h
      obtain ⟨hm, tail, hlog⟩ := ccStep_ok c _ bcm _ _ k m' log' h
      refine ⟨fun key hne => ?_, fun e he => ?_⟩
      · rw [hm, dlookup_dinsert_ne _ _ _ _ hne]; exact hprev key hne
      · rw [hlog]
        cases hinfo :
            !truthyCell ((dlookup (psStep a (dinsert st.1 k none) k v).2 k).getD none) <;>
          simp [he]

/-- A successful loop iteration with `check_consistency` on computed the
barcode map, made it the cell of the processed key (overwriting the curated
map), and logged the outcome of comparing it with the curated `ps_map`. -/
theorem reconOne_cc_ok (srm : List (Option SrmDoc)) (a b : Bool)
    (st : Dict String Cell × List LogEntry) (k : String) (v : PrjSampleDoc)
    (m' : Dict String Cell) (log' : List LogEntry)
    (h : reconOne srm a b true st k v = Except.ok (m', log')) :
    ∃ bcm, bcMapCompute k srm [] = Except.ok bcm ∧
      dlookup m' k = some (some bcm) ∧
      (bif pyEqOptDict (_get_sample_run_metrics v) bcm
        then LogEntry.debugConsistent k ∈ log'
        else LogEntry.warnInconsistent k (_get_sample_run_metrics v) bcm ∈ log') := by
  unfold reconOne at h
  cases hcond : b ||
      !truthyCell ((dlookup (psStep a (dinsert st.1 k none) k v).2 k).getD none) with
  | false => rw [hcond] at h; simp at h
  | true =>
    rw [hcond] at h
    simp only [cond_true] at h
    cases hbc : bcMapCompute k srm [] with
    | error e => rw [hbc] at h; simp at h
    | ok bcm =>
      rw [hbc] at h
      obtain ⟨pm, hpm, hm, hlog⟩ := ccStep_true_ok _ bcm _ _ k m' log' h
      cases a with
      | false =>
        have hfst : (psStep false (dinsert st.1 k none) k v).1 = none := rfl
        rw [hfst] at hpm
        cases hpm
      | true =>
        have hfst : (psStep true (dinsert st.1 k none) k v).1 =
            some (_get_sample_run_metrics v) := rfl
        rw [hfst] at hpm
        injection hpm with hpm'
        refine ⟨bcm, rfl, ?_, ?_⟩
        · rw [hm, dlookup_dinsert_self]
        · rw [hlog, ← hpm']
          cases hcmp : pyEqOptDict (_get_sample_run_metrics v) bcm <;> simp [hcmp]

/-- The loop leaves untouched the cell of any key it never processes, and
only appends to the log. -/
theorem reconFold_preserve (srm : List (Option SrmDoc)) (a b c : Bool) (key : String) :
    ∀ (l : List (String × PrjSampleDoc)) (st st' : Dict String Cell × List LogEntry),
      (∀ p ∈ l, p.1 ≠ key) →
      reconFold srm a b c l st = Except.ok st' →
      dlookup st'.1 key = dlookup st.1 key ∧ (∀ e ∈ st.2, e ∈ st'.2) := by
  intro l
  induction l with
  | nil =>
    intro st st' _ h
    simp only [reconFold, Except.ok.injEq] at h
    rw [← h]
    exact ⟨rfl, fun e he => he⟩
  | cons kv rest ih =>
    intro st st' hne h
    obtain ⟨k0, v0⟩ := kv
    cases hone : reconOne srm a b c st k0 v0 with
    | error e => simp only [reconFold] at h; rw [hone] at h; simp at h
    | ok st1 =>
      have h' : reconFold srm a b c rest st1 = Except.ok st' := by
        simp only [reconFold] at h; rw [hone] at h; exact h
      obtain ⟨q1, q2⟩ := ih st1 st' (fun p hp => hne p (List.mem_cons_of_mem _ hp)) h'
      obtain ⟨st1m, st1l⟩ := st1
      obtain ⟨p1, p2⟩ := reconOne_preserve srm a b c st k0 v0 st1m st1l hone
      have hk0 : k0 ≠ key := hne (k0, v0) (List.mem_cons_self _ _)
      exact ⟨by rw [q1]; exact p1 key hk0, fun e he => q2 _ (p2 e he)⟩

/-- With `check_consistency` on, every declared sample's final cell is the
barcode map, and the comparison of curated and barcode maps is logged. -/
theorem reconFold_cc (srm : List (Option SrmDoc)) (a b : Bool) (k : String)
    (v : PrjSampleDoc) :
    ∀ (l : List (String × PrjSampleDoc)) (st st' : Dict String Cell × List LogEntry),
      (k, v) ∈ l → (l.map Prod.fst).Nodup →
      reconFold srm a b true l st = Except.ok st' →
      ∃ bcm, bcMapCompute k srm [] = Except.ok bcm ∧
        dlookup st'.1 k = some (some bcm) ∧
        (bif pyEqOptDict (_get_sample_run_metrics v) bcm
          then LogEntry.debugConsistent k ∈ st'.2
          else LogEntry.warnInconsistent k (_get_sample_run_metrics v) bcm ∈ st'.2) := by
  intro l
  induction l with
  | nil => intro st st' hmem _ _; exact absurd hmem (List.not_mem_nil _)
  | cons kv rest ih =>
    intro st st' hmem hnd h
    obtain ⟨k0, v0⟩ := kv
    cases hone : reconOne srm a b true st k0 v0 with
    | error e => simp only [reconFold] at h; rw [hone] at h; simp at h
    | ok st1 =>
      have h' : reconFold srm a b true rest st1 = Except.ok st' := by
        simp only [reconFold] at h; rw [hone] at h; exact h
      rw [List.map_cons, List.nodup_cons] at hnd
      rcases List.mem_cons.mp hmem with heq | hmem'
      · injection heq with h1 h2
        subst h1
        subst h2
        obtain ⟨st1m, st1l⟩ := st1
        obtain ⟨bcm, hbc, hlk, hlog⟩ := reconOne_cc_ok srm a b st k v st1m st1l hone
        have hkeys : ∀ p ∈ rest, p.1 ≠ k := by
          intro p hp he
          have hmm : p.1 ∈ List.map Prod.fst rest := List.mem_map_of_mem Prod.fst hp
          rw [he] at hmm
          exact hnd.1 hmm
        obtain ⟨q1, q2⟩ := reconFold_preserve srm a b true k rest (st1m, st1l) st' hkeys h'
        refine ⟨bcm, hbc, by rw [q1]; exact hlk, ?_⟩
        cases hcmp : pyEqOptDict (_get_sample_run_metrics v) bcm with
        | false =>
          rw [hcmp, cond_false] at hlog
          simp only [cond_false]
          exact q2 _ hlog
        | true =>
          rw [hcmp, cond_true] at hlog
          simp only [cond_true]
          exact q2 _ hlog
      · exact ih st1 st' hmem' hnd.2 h'

/-- C6 amended: when `check_consistency` is requested, for every declared
project sample `(k, v)` the reconciler computes both the curated map and
the matcher-derived barcode map regardless of the preference flags, logs
the inconsistency warning identifying `k` and both maps exactly when they
differ (a consistency debug line otherwise), and returns a result in which
the BARCODE map -- not the curated one -- is the output cell for `k` (the
forced `use_bc_map` makes `sample_map[k] = bc_map` overwrite the curated
entry). -/
theorem map_name_to_srm_check_consistency (pcon : ProjConn) (scon : SRMConn)
    (pid : String) (fc : Option String) (a b : Bool) (proj : ProjDoc)
    (ps : Dict String PrjSampleDoc) (m : Dict String Cell) (log : List LogEntry)
    (k : String) (v : PrjSampleDoc)
    (hproj : get_entryP pcon pid = some proj)
    (hsamp : proj.samples = some ps)
    (hmem : (k, v) ∈ ps)
    (hnd : (ps.map Prod.fst).Nodup)
    (hok : map_name_to_srm pcon scon pid fc a b true = Except.ok (some m, log)) :
    ∃ bcm, bcMapCompute k (get_samples scon fc (some pid)) [] = Except.ok bcm ∧
      dlookup m k = some (some bcm) ∧
      (bif pyEqOptDict (_get_sample_run_metrics v) bcm
        then LogEntry.debugConsistent k ∈ log
        else LogEntry.warnInconsistent k (_get_sample_run_metrics v) bcm ∈ log) := by
  simp only [map_name_to_srm, hproj, hsamp] at hok
  cases hfold : reconFold (get_samples scon fc (some pid)) (a || true) (b || true)
      true ps ([], []) with
  | error e => rw [hfold] at hok; simp at hok
  | ok st' =>
    rw [hfold] at hok
    obtain ⟨m', log'⟩ := st'
    simp only [Except.ok.injEq, Prod.mk.injEq, Option.some.injEq] at hok
    obtain ⟨h1, h2⟩ := hok
    obtain ⟨bcm, hbc, hlk, hlog⟩ :=
      reconFold_cc (get_samples scon fc (some pid)) (a || true) (b || true) k v ps
        ([], []) (m', log') hmem hnd hfold
    subst h1
    subst h2
    exact ⟨bcm, hbc, hlk, hlog⟩

/-- Witness for `map_name_to_srm_check_consistency` on the `PRJ` store: the
sample `S1` has a curated map differing from the (empty) barcode map, the
warning identifying `S1` and both maps is in the log, and the output cell
for `S1` is the empty barcode map. -/
theorem map_name_to_srm_check_consistency_witness :
    ∃ bcm, bcMapCompute "S1" (get_samples sconEmpty none (some "PRJ")) [] =
        Except.ok bcm ∧
      dlookup [("S1", (some [] : Cell))] "S1" = some (some bcm) ∧
      (bif pyEqOptDict (_get_sample_run_metrics vC6) bcm
        then LogEntry.debugConsistent "S1" ∈
          [LogEntry.warnInconsistent "S1" (some cC6) []]
        else LogEntry.warnInconsistent "S1" (_get_sample_run_metrics vC6) bcm ∈
          [LogEntry.warnInconsistent "S1" (some cC6) []]) :=
  map_name_to_srm_check_consistency pconC6 sconEmpty "PRJ" none true false projC6
    [("S1", vC6)] [("S1", some [])] [LogEntry.warnInconsistent "S1" (some cC6) []]
    "S1" vC6 rfl rfl (by simp) (by simp) rfl

/-- C6 counterexample: on the `PRJ` store with `check_consistency` on, both
maps are computed and the warning is emitted, but the output cell for `S1`
is the empty barcode map, not the non-empty curated map `cC6` -- the
curated map does NOT take precedence in the output, refuting that part of
the claim. -/
theorem check_consistency_output_cex :
    map_name_to_srm pconC6 sconEmpty "PRJ" none true false true =
      Except.ok (some [("S1", some [])],
        [LogEntry.warnInconsistent "S1" (some cC6) []]) ∧
    _prune_ps_map (_get_sample_run_metrics vC6) = some cC6 ∧
    ((some [] : Cell) ≠ some cC6) :=
  ⟨rfl, rfl, by decide⟩
